import Mathlib

/-!
Verification development for the CALM-VLN agent core
(`r2r_src/agent.py` and `r2r_src/model_PREVALENT.py`).

The Python source is shallowly embedded in Lean: floating point tensors are
modelled with rationals (or reals where `exp`/`log` are needed), per-batch
tensors become Lean lists or `Fin`-indexed functions, numpy in-place updates
become explicit state passing, and Python exceptions (raise / assert) become
`Except String`.
-/

deriving instance DecidableEq for Except

namespace CalmVLN

/-! ## Logits, masking, and action selection (agent.py, rollout, lines 334-381)

A logit value is either a finite float (modelled as a rational) or the
negative infinity used by `masked_fill_(candidate_mask, -float(inf))`. -/

inductive Logit where
  | negInf : Logit
  | val : ℚ → Logit
deriving DecidableEq, Repr

/-- Strict comparison of logit values: `-inf` is below every finite value and
not below itself, matching IEEE float comparison for these cases. -/
def logitLt : Logit → Logit → Bool
  | _, Logit.negInf => false
  | Logit.negInf, Logit.val _ => true
  | Logit.val a, Logit.val b => decide (a < b)

/-- `argmaxAux xs j bi bv` scans `xs` (whose head sits at absolute position
`j`), carrying the best index `bi` and best value `bv` so far; a later
element replaces the best only when strictly greater, so the first maximum
wins, as in `logit.max(1)`. -/
def argmaxAux : List Logit → ℕ → ℕ → Logit → ℕ
  | [], _, bi, _ => bi
  | x :: xs, j, bi, bv =>
      if logitLt bv x then argmaxAux xs (j + 1) j x else argmaxAux xs (j + 1) bi bv

/-- Index of the (first) maximal entry of a row of logits, `logit.max(1)`. -/
def argmaxRow : List Logit → ℕ
  | [] => 0
  | x :: xs => argmaxAux xs 1 0 x

/-- Modelled from the spec: `utils.length2mask` is part of this repository
but `utils.py` is not in the provided sources.  Per the spec, the mask marks
candidate indices `>= k` (with `k` the candidate count including the virtual
stop slot) as invalid. -/
def length2mask (k j : ℕ) : Bool := decide (k ≤ j)

/-- `maskedFillFrom j k row` rewrites every entry of `row` whose absolute
position (starting at `j`) is marked invalid by `length2mask k` to `-inf`:
the in-place `logit.masked_fill_(candidate_mask, -float(inf))`. -/
def maskedFillFrom : ℕ → ℕ → List Logit → List Logit
  | _, _, [] => []
  | j, k, x :: xs =>
      (if length2mask k j then Logit.negInf else x) :: maskedFillFrom (j + 1) k xs

/-- `masked_fill row k` fills the logits at invalid slots (index `≥ k`)
with negative infinity. -/
def masked_fill (row : List Logit) (k : ℕ) : List Logit := maskedFillFrom 0 k row

/-- Action selection as written in `Seq2SeqAgent.rollout`: only the
`argmax` feedback branch (lines 334-377) applies the `-inf` candidate mask
before taking `logit.max(1)`; the `else` branch (lines 378-381, covering
the `teacher` and `sample` feedback modes) takes the argmax of the raw,
unmasked logits. -/
def chooseAction (feedback : String) (logits : List Logit) (candLeng : ℕ) : ℕ :=
  if feedback = "argmax" then argmaxRow (masked_fill logits candLeng)
  else argmaxRow logits

/-! ## Reward shaper (agent.py, rollout, lines 407-435) -/

/-- Exception message for the zero-movement invariant violation
(`raise NameError` at line 432). -/
def zeroMoveMsg : String := "The action does not change the move"

/-- Per-instance reward and mask computation from the `train_rl` block of
`Seq2SeqAgent.rollout` (lines 412-435).  Returns `(reward, mask)`, or the
fatal `NameError` when a non-stop action leaves the goal distance
unchanged. -/
def stepReward (ended : Bool) (action : Int) (dist lastDist ndtw lastNdtw : ℚ) :
    Except String (ℚ × ℚ) :=
  if ended then Except.ok (0, 0)
  else
    if action = -1 then
      if dist < 3 then Except.ok (2 + ndtw * 2, 1) else Except.ok (-2, 1)
    else
      let base : ℚ := -(dist - lastDist)
      let ndtwReward : ℚ := ndtw - lastNdtw
      if 0 < base then
        let r : ℚ := 1 + ndtwReward
        Except.ok ((if lastDist ≤ 1 ∧ 0 < dist - lastDist then r - (1 - lastDist) * 2 else r), 1)
      else if base < 0 then
        let r : ℚ := -1 + ndtwReward
        Except.ok ((if lastDist ≤ 1 ∧ 0 < dist - lastDist then r - (1 - lastDist) * 2 else r), 1)
      else Except.error zeroMoveMsg

/-- Reward shaper as worded in spec section 4.4: stop action gives
`2 + 2*nDTW` on success (distance below 3) else `-2`; movement quantizes the
base reward `-(dist - lastDist)` to `±1 + Δ nDTW` and subtracts the
missed-target penalty `2*(1 - lastDist)` when the instance was within `1.0`
of the goal and moved away; zero delta is fatal; ended instances get reward
0 and mask 0. -/
def specRewardMask (ended : Bool) (action : Int) (dist lastDist ndtw lastNdtw : ℚ) :
    Except String (ℚ × ℚ) :=
  if ended then Except.ok (0, 0)
  else if action = -1 then
    Except.ok ((if dist < 3 then 2 + 2 * ndtw else -2), 1)
  else
    let base : ℚ := -(dist - lastDist)
    let delta : ℚ := ndtw - lastNdtw
    let penalty : ℚ := if lastDist ≤ 1 ∧ lastDist < dist then (1 - lastDist) * 2 else 0
    if 0 < base then Except.ok (1 + delta - penalty, 1)
    else if base < 0 then Except.ok (-1 + delta - penalty, 1)
    else Except.error zeroMoveMsg

/-! ## Teacher/oracle action resolver (agent.py, `_teacher_action`, lines 171-190) -/

/-- The observation fields `_teacher_action` reads: the candidate viewpoint
ids, the oracle's designated next viewpoint, and the current viewpoint. -/
structure ObsT where
  candidates : List String
  teacher : String
  viewpoint : String
deriving DecidableEq, Repr

/-- Message of the failed `assert ob['teacher'] == ob['viewpoint']`. -/
def teacherAssertMsg : String := "The teacher action should be STAY HERE"

/-- The `for k, candidate in enumerate(ob['candidate'])` loop with `break`:
first index (offset by the accumulator `k`) whose viewpoint id equals the
teacher viewpoint. -/
def findTeacherIdx (teacher : String) : List String → ℕ → Option ℕ
  | [], _ => none
  | c :: cs, k => if c = teacher then some k else findTeacherIdx teacher cs (k + 1)

/-- Per-instance body of `Seq2SeqAgent._teacher_action`: ended instances get
the ignore label; otherwise the first candidate matching the oracle viewpoint
gives the label, and with no match the oracle viewpoint must equal the
current viewpoint (else the assert fires) and the label is the stop slot
`len(ob['candidate'])`. -/
def teacherActionOne (ignoreid : Int) (ended : Bool) (ob : ObsT) : Except String Int :=
  if ended then Except.ok ignoreid
  else
    match findTeacherIdx ob.teacher ob.candidates 0 with
    | some k => Except.ok (k : Int)
    | none =>
        if ob.teacher = ob.viewpoint then Except.ok (ob.candidates.length : Int)
        else Except.error teacherAssertMsg

/-- Whole-batch `_teacher_action`: one label per instance, in batch order. -/
def teacher_action (ignoreid : Int) (obs : List ObsT) (ended : List Bool) :
    Except String (List Int) :=
  (obs.zip ended).mapM (fun p => teacherActionOne ignoreid p.2 p.1)

/-- Scan of the candidate list as worded in spec section 4.3: the index of
the first candidate whose viewpoint equals the oracle's next viewpoint. -/
def scanCandidates (teacher : String) : List String → Option ℕ
  | [] => none
  | c :: cs => if c = teacher then some 0 else (scanCandidates teacher cs).map (· + 1)

/-- Teacher label as worded in spec section 4.3. -/
def specTeacherLabel (ignoreid : Int) (ended : Bool) (ob : ObsT) : Except String Int :=
  if ended then Except.ok ignoreid
  else
    match scanCandidates ob.teacher ob.candidates with
    | some k => Except.ok (k : Int)
    | none =>
        if ob.teacher = ob.viewpoint then Except.ok (ob.candidates.length : Int)
        else Except.error teacherAssertMsg

/-! ## Encoder forward dispatch (model_PREVALENT.py, `VLNBERT.forward`, lines 64-98) -/

/-- Shape of the value returned by `VLNBERT.forward`; the tensor payloads are
opaque (the encoder internals are out of scope).  `noneOut` is the implicit
Python `None` returned when control falls off the end of the function. -/
inductive ForwardOut where
  | langOut : ForwardOut
  | visualOut : ForwardOut
  | noneOut : ForwardOut
deriving DecidableEq, Repr

/-- Is an `Except` computation a normal return? -/
def exceptIsOk {ε α : Type} : Except ε α → Bool
  | Except.ok _ => true
  | Except.error _ => false

/-- Mode dispatch of `VLNBERT.forward`: `language` and `visual` return their
outputs; any other mode reaches the final `else:` whose body is the bare
expression `ModuleNotFoundError` — the exception class is evaluated but
never raised, so the call returns Python `None` normally. -/
def VLNBERT_forward (mode : String) : Except String ForwardOut :=
  if mode = "language" then Except.ok ForwardOut.langOut
  else if mode = "visual" then Except.ok ForwardOut.visualOut
  else Except.ok ForwardOut.noneOut

/-! ## Monte Carlo dropout ensembling (model_PREVALENT.py, lines 36-62) -/

/-- The shared mutable model state that `monte_carlo_forward` touches:
the `mc_dropout` flag, the `training` flag of the `nn.Dropout` sub-modules,
and the ambient autograd tracking mode. -/
structure MCState where
  mcDropout : Bool
  dropoutTrain : Bool
  gradEnabled : Bool
deriving DecidableEq, Repr

/-- `VLNBERT.enable_dropout` (lines 40-44): puts every dropout sub-module
into train (stochastic) mode. -/
def enable_dropout (s : MCState) : MCState := { s with dropoutTrain := true }

/-- State effect of one `VLNBERT.forward` call (lines 68-69): when the
`mc_dropout` flag is set, dropout is re-enabled before the pass. -/
def forwardEffect (s : MCState) : MCState :=
  if s.mcDropout then enable_dropout s else s

/-- `self.mc_dropout_samples = 10` (line 36). -/
def mc_dropout_samples : ℕ := 10

/-- Runs `n` forward passes, returning the final state and, per pass, the
gradient-tracking mode in effect during that pass. -/
def mcLoop : ℕ → MCState → MCState × List Bool
  | 0, s => (s, [])
  | n + 1, s =>
      let s' := forwardEffect s
      let rest := mcLoop n s'
      (rest.1, s.gradEnabled :: rest.2)

/-- Outcome of `VLNBERT.monte_carlo_forward`: final shared model state,
number of stochastic passes, and the gradient mode seen by each pass. -/
structure MCRun where
  finalState : MCState
  numPasses : ℕ
  passGradModes : List Bool
deriving DecidableEq, Repr

/-- `VLNBERT.monte_carlo_forward` (lines 46-62): sets `mc_dropout`, calls
`enable_dropout`, runs `mc_dropout_samples` forward passes inside a
`torch.no_grad()` block (which restores the previous gradient mode on
exit), and finally clears the `mc_dropout` flag.  Nothing switches the
dropout sub-modules back to evaluation mode. -/
def monte_carlo_forward (s0 : MCState) : MCRun :=
  let s1 : MCState := { s0 with mcDropout := true }
  let s2 : MCState := enable_dropout s1
  let sNoGrad : MCState := { s2 with gradEnabled := false }
  let run := mcLoop mc_dropout_samples sNoGrad
  let sRestored : MCState := { run.1 with gradEnabled := s2.gradEnabled }
  let sFinal : MCState := { sRestored with mcDropout := false }
  { finalState := sFinal, numPasses := mc_dropout_samples, passGradModes := run.2 }

/-! ## Confidence estimator (agent.py, `calculate_confidence`, lines 231-249)

The logit stack has shape `(N, batch, candidates)`; the computation is
independent per batch instance, so it is modelled per instance with a
function `Fin N → Fin (C + 1) → ℝ` (there is always at least one candidate
slot: the virtual stop). -/

/-- The additive epsilon `1e-10` inside the entropy logarithm. -/
noncomputable def mcEps : ℝ := 1 / 10 ^ 10

/-- Softmax over the candidate dimension, `F.softmax(x, dim=-1)`. -/
noncomputable def softmaxR {C : ℕ} (x : Fin (C + 1) → ℝ) (c : Fin (C + 1)) : ℝ :=
  Real.exp (x c) / ∑ j, Real.exp (x j)

/-- `Seq2SeqAgent.calculate_confidence`, translated line by line: ensemble
mean and (unbiased, `torch.var` default) variance of the logits, softmax of
the mean logits, entropy-based confidence, variance-based uncertainty,
agreement, and their arithmetic mean. -/
noncomputable def calculate_confidence {N C : ℕ} (logits : Fin N → Fin (C + 1) → ℝ) : ℝ :=
  let mean_logits : Fin (C + 1) → ℝ := fun c => (∑ n, logits n c) / N
  let var_logits : Fin (C + 1) → ℝ :=
    fun c => (∑ n, (logits n c - mean_logits c) ^ 2) / ((N : ℝ) - 1)
  let mean_probs : Fin (C + 1) → ℝ := softmaxR mean_logits
  let entropy : ℝ := -∑ c, mean_probs c * Real.log (mean_probs c + mcEps)
  let entropy_confidence : ℝ := 1 - entropy / Real.log ((C : ℝ) + 1)
  let uncertainty : ℝ := (∑ c, var_logits c) / ((C : ℝ) + 1)
  let agreement : ℝ :=
    Finset.univ.sup' (Finset.univ_nonempty (α := Fin (C + 1))) mean_probs
  (entropy_confidence + (1 - uncertainty) + agreement) / 3

/-- Mean over the ensemble dimension of a logit stack. -/
noncomputable def ensembleMean {N C : ℕ} (logits : Fin N → Fin (C + 1) → ℝ)
    (c : Fin (C + 1)) : ℝ :=
  (∑ n, logits n c) / N

/-- Per-candidate variance of the logits across the ensemble (with the
`torch.var` Bessel correction, dividing by `N - 1`). -/
noncomputable def ensembleVar {N C : ℕ} (logits : Fin N → Fin (C + 1) → ℝ)
    (c : Fin (C + 1)) : ℝ :=
  (∑ n, (logits n c - ensembleMean logits c) ^ 2) / ((N : ℝ) - 1)

/-- The softmax of the ensemble-mean logits, the "mean softmax" of the spec. -/
noncomputable def meanSoftmax {N C : ℕ} (logits : Fin N → Fin (C + 1) → ℝ)
    (c : Fin (C + 1)) : ℝ :=
  softmaxR (ensembleMean logits) c

/-- Shannon entropy of a distribution, stabilized by the additive epsilon
inside the log, as in spec section 4.2. -/
noncomputable def shannonEntropy {C : ℕ} (p : Fin (C + 1) → ℝ) : ℝ :=
  -∑ c, p c * Real.log (p c + mcEps)

/-- Spec term (1): entropy confidence `1 - H(mean softmax) / log numCandidates`. -/
noncomputable def entropyConfidenceTerm {N C : ℕ} (logits : Fin N → Fin (C + 1) → ℝ) : ℝ :=
  1 - shannonEntropy (meanSoftmax logits) / Real.log ((C : ℝ) + 1)

/-- Spec term (2): inverse variance `1 - mean over candidates of the
per-candidate ensemble variance`. -/
noncomputable def inverseVarianceTerm {N C : ℕ} (logits : Fin N → Fin (C + 1) → ℝ) : ℝ :=
  1 - (∑ c, ensembleVar logits c) / ((C : ℝ) + 1)

/-- Spec term (3): agreement, the maximum of the mean softmax distribution. -/
noncomputable def agreementTerm {N C : ℕ} (logits : Fin N → Fin (C + 1) → ℝ) : ℝ :=
  Finset.univ.sup' (Finset.univ_nonempty (α := Fin (C + 1))) (meanSoftmax logits)

/-! ## Rollout engine (agent.py, `Seq2SeqAgent.rollout`, lines 251-521)

The environment, the encoder and the nDTW criterion are external
collaborators; they are modelled as oracles indexed by step `t` and batch
instance `i` (in the fixed permutation order).  `modelAction t i` is the
argmax index `a_t[i]` produced by the action-selection code of the step,
`candLeng t i` is `candidate_leng[i]` (candidates plus the virtual stop),
`stepDist`/`stepNdtw` are the observation's distance and nDTW after the
step's movement, and `stepNode` is the simulator state appended to the
trajectory when the instance moves. -/

/-- A `(viewpointId, heading, elevation)` trajectory entry. -/
structure PathNode where
  viewpoint : String
  heading : ℚ
  elevation : ℚ
deriving DecidableEq, Repr

/-- The oracles feeding one rollout call. -/
structure RolloutEnv where
  batchSize : ℕ
  episodeLen : ℕ
  ignoreid : Int
  modelAction : ℕ → ℕ → Int
  candLeng : ℕ → ℕ → ℕ
  confidence : ℕ → ℕ → ℚ
  stepDist : ℕ → ℕ → ℚ
  stepNdtw : ℕ → ℕ → ℚ
  stepNode : ℕ → ℕ → PathNode
  initDist : ℕ → ℚ
  initNdtw : ℕ → ℚ
  initNode : ℕ → PathNode

/-- The mutable per-rollout bookkeeping of `Seq2SeqAgent.rollout`:
`ended`, the trajectories (`path` and `confidence_scores`), the reward and
mask histories, and the reward-shaping baselines.  `beforeEnded` and
`actionHist` are history (ghost) records: per executed step, the `ended`
vector as read at the start of the step and the environment action vector
`cpu_a_t` issued by the step. -/
structure RolloutState where
  ended : List Bool
  paths : List (List PathNode)
  confs : List (List ℚ)
  rewards : List (List ℚ)
  masks : List (List ℚ)
  lastDist : List ℚ
  lastNdtw : List ℚ
  beforeEnded : List (List Bool)
  actionHist : List (List Int)
  steps : ℕ
deriving DecidableEq, Repr

/-- The environment action `cpu_a_t[i]` (lines 391-394): the model's argmax
index, turned into the sentinel `-1` when it is the virtual stop slot
`candidate_leng[i] - 1`, the ignore id, or the instance has already
ended. -/
def cpuAction (env : RolloutEnv) (t : ℕ) (endedI : Bool) (i : ℕ) : Int :=
  let a := env.modelAction t i
  if a = (env.candLeng t i : Int) - 1 ∨ a = env.ignoreid ∨ endedI = true then -1 else a

/-- The per-step confidence-score update (lines 383-386): a score is
appended only for instances not yet ended; in `argmax` feedback it is the
Monte Carlo combined confidence, otherwise the placeholder `0`. -/
def stepConfs (env : RolloutEnv) (feedback : String) (t : ℕ) (s : RolloutState) :
    List (List ℚ) :=
  (List.range env.batchSize).map fun i =>
    if s.ended.getD i false then s.confs.getD i []
    else s.confs.getD i [] ++ [if feedback = "argmax" then env.confidence t i else 0]

/-- The environment action vector `cpu_a_t` of step `t`. -/
def stepCpu (env : RolloutEnv) (t : ℕ) (s : RolloutState) : List Int :=
  (List.range env.batchSize).map fun i => cpuAction env t (s.ended.getD i false) i

/-- The trajectory-path update of step `t` (`make_equiv_action`, line 228):
instances whose environment action is the sentinel `-1` do not move and get
nothing appended. -/
def stepPaths (env : RolloutEnv) (t : ℕ) (s : RolloutState) : List (List PathNode) :=
  (List.range env.batchSize).map fun i =>
    if (stepCpu env t s).getD i (-1) = -1 then s.paths.getD i []
    else s.paths.getD i [] ++ [env.stepNode t i]

/-- The `ended` update of step `t` (line 443):
`ended = logical_or(ended, cpu_a_t == -1)`. -/
def stepEnded (env : RolloutEnv) (t : ℕ) (s : RolloutState) : List Bool :=
  (List.range env.batchSize).map fun i =>
    s.ended.getD i false || decide ((stepCpu env t s).getD i (-1) = -1)

/-- One iteration of the `for t in range(self.episode_len)` loop
(lines 311-443), excluding the early-exit test: append confidence scores
for non-ended instances, convert the model action to the environment
action, append the new simulator state to the paths of moving instances,
compute rewards and masks when `train_rl` is on (propagating the fatal
zero-movement error), and update the `ended` vector monotonically. -/
def rolloutStep (env : RolloutEnv) (feedback : String) (trainRl : Bool) (t : ℕ)
    (s : RolloutState) : Except String RolloutState := do
  let B := env.batchSize
  if trainRl then
    let rms ← (List.range B).mapM fun i =>
      stepReward (s.ended.getD i false) ((stepCpu env t s).getD i (-1)) (env.stepDist t i)
        (s.lastDist.getD i 0) (env.stepNdtw t i) (s.lastNdtw.getD i 0)
    pure { ended := stepEnded env t s, paths := stepPaths env t s,
           confs := stepConfs env feedback t s,
           rewards := s.rewards ++ [rms.map Prod.fst],
           masks := s.masks ++ [rms.map Prod.snd],
           lastDist := (List.range B).map fun i => env.stepDist t i,
           lastNdtw := (List.range B).map fun i => env.stepNdtw t i,
           beforeEnded := s.beforeEnded ++ [s.ended],
           actionHist := s.actionHist ++ [stepCpu env t s],
           steps := s.steps + 1 }
  else
    pure { ended := stepEnded env t s, paths := stepPaths env t s,
           confs := stepConfs env feedback t s,
           rewards := s.rewards, masks := s.masks,
           lastDist := s.lastDist, lastNdtw := s.lastNdtw,
           beforeEnded := s.beforeEnded ++ [s.ended],
           actionHist := s.actionHist ++ [stepCpu env t s],
           steps := s.steps + 1 }

/-- The step loop with its early exit: after each step, stop as soon as
every instance has ended (`if ended.all(): break`, lines 446-447). -/
def rolloutLoop (env : RolloutEnv) (feedback : String) (trainRl : Bool) :
    ℕ → ℕ → RolloutState → Except String RolloutState
  | 0, _, s => Except.ok s
  | fuel + 1, t, s => do
    let s' ← rolloutStep env feedback trainRl t s
    if s'.ended.all (fun b => b) then Except.ok s'
    else rolloutLoop env feedback trainRl fuel (t + 1) s'

/-- The state at rollout start (lines 286-309): every trajectory holds the
starting node, confidence lists are empty, nothing has ended, and the
reward baselines are the initial distance and nDTW. -/
def initState (env : RolloutEnv) : RolloutState :=
  let B := env.batchSize
  { ended := List.replicate B false,
    paths := (List.range B).map fun i => [env.initNode i],
    confs := List.replicate B [],
    rewards := [], masks := [],
    lastDist := (List.range B).map env.initDist,
    lastNdtw := (List.range B).map env.initNdtw,
    beforeEnded := [], actionHist := [],
    steps := 0 }

/-- What a rollout call produces, beyond the trajectories: how often the
critic was evaluated (once for the bootstrap value plus once per collected
reward vector, lines 475-488), and whether an RL loss term and an imitation
loss term were added to `self.loss` (lines 508 and 511-512). -/
structure RolloutResult where
  state : RolloutState
  criticEvals : ℕ
  rlLossAdded : Bool
  ilLossAdded : Bool
deriving DecidableEq, Repr

/-- The `train_rl` override of lines 259-260: in `teacher` or `argmax`
feedback, `train_rl` is forced to `False` regardless of the caller's
argument. -/
def effTrainRl (feedback : String) (trainRl : Bool) : Bool :=
  if feedback = "teacher" ∨ feedback = "argmax" then false else trainRl

/-- `Seq2SeqAgent.rollout`: the `train_rl` argument is overridden by
`effTrainRl`, then the step loop runs from the initial state; afterwards
the A2C block (critic evaluations and the RL loss term) runs only under
the overridden `train_rl`, and the imitation loss is added only when a
`train_ml` weight was supplied. -/
def rollout (feedback : String) (trainMl : Option ℚ) (trainRl : Bool) (env : RolloutEnv) :
    Except String RolloutResult := do
  let s ← rolloutLoop env feedback (effTrainRl feedback trainRl) env.episodeLen 0 (initState env)
  pure { state := s,
         criticEvals := if effTrainRl feedback trainRl then 1 + s.rewards.length else 0,
         rlLossAdded := effTrainRl feedback trainRl,
         ilLossAdded := trainMl.isSome }

/-! ### Rollout invariants (claim C2) -/

/-- Pointwise implication between two `ended` vectors: every instance ended
in the first is still ended in the second. -/
def endedMono (e e' : List Bool) : Prop :=
  ∀ i : ℕ, e.getD i false = true → e'.getD i false = true

/-- Monotonicity of `ended` across the whole rollout: along the sequence of
step-start `ended` vectors followed by the final one, an instance never
un-ends. -/
def EndedMonotone (s : RolloutState) : Prop :=
  List.Chain' endedMono (s.beforeEnded ++ [s.ended])

/-- Every instance already ended at the start of a step receives the
sentinel environment action `-1` at that step. -/
def ForcedNoop (s : RolloutState) : Prop :=
  ∀ t i : ℕ, (s.beforeEnded.getD t []).getD i false = true →
    (s.actionHist.getD t []).getD i (-1) = -1

/-- Each instance's confidence-score list has exactly one entry per executed
step at whose start the instance had not yet ended: nothing is appended
after termination. -/
def ConfFrozen (B : ℕ) (s : RolloutState) : Prop :=
  ∀ i : ℕ, i < B →
    (s.confs.getD i []).length =
      s.beforeEnded.countP (fun e => !e.getD i false)

/-- The inductive invariant carried through the step loop. -/
def RolloutInv (B : ℕ) (s : RolloutState) : Prop :=
  s.ended.length = B ∧
  s.actionHist.length = s.beforeEnded.length ∧
  EndedMonotone s ∧ ForcedNoop s ∧ ConfFrozen B s

/-! ### Concrete rollout scenarios

Small closed environments used to exercise the model on explicit inputs.
`PathNode` payloads encode the step and instance in the heading/elevation
slots so that results are easy to read. -/

/-- Scenario for claim C8: a batch of 2 instructions with `episodeLen = 3`
and 2 real candidates plus the virtual stop (`candidate_leng = 3`), where
both instances select the stop slot (index 2) at step 0.  All rational
payloads are integer literals so that the whole rollout evaluates inside
the kernel. -/
def envC8 : RolloutEnv :=
  { batchSize := 2, episodeLen := 3, ignoreid := -100,
    modelAction := fun _ _ => 2,
    candLeng := fun _ _ => 3,
    confidence := fun _ _ => 1,
    stepDist := fun _ _ => 4,
    stepNdtw := fun _ _ => 0,
    stepNode := fun t _ => ⟨if t = 0 then "w0" else if t = 1 then "w1" else "w2", 0, 0⟩,
    initDist := fun _ => 5,
    initNdtw := fun _ => 0,
    initNode := fun i => ⟨if i = 0 then "s0" else "s1", 0, 0⟩ }

/-- Scenario for the claim C2 witness: instance 0 stops at step 0 while
instance 1 moves at steps 0 and 1 and stops at step 2, so the `ended`
vector changes mid-rollout. -/
def envC2 : RolloutEnv :=
  { envC8 with
    modelAction := fun t i => if i = 0 then 2 else (if t < 2 then 0 else 2) }

/-- Scenario for the claim C10 witness, same shape as `envC2`. -/
def envC10 : RolloutEnv :=
  { envC8 with
    modelAction := fun t i => if i = 0 then 2 else (if t < 1 then 0 else 2) }

/-- The result of `rollout "argmax" none false envC2`, written out. -/
def resC2 : RolloutResult :=
  { state := { ended := [true, true],
               paths := [[⟨"s0", 0, 0⟩], [⟨"s1", 0, 0⟩, ⟨"w0", 0, 0⟩, ⟨"w1", 0, 0⟩]],
               confs := [[1], [1, 1, 1]],
               rewards := [], masks := [],
               lastDist := [5, 5], lastNdtw := [0, 0],
               beforeEnded := [[false, false], [true, false], [true, false]],
               actionHist := [[-1, 0], [-1, 0], [-1, -1]],
               steps := 3 },
    criticEvals := 0, rlLossAdded := false, ilLossAdded := false }

/-- The result of `rollout "teacher" (some 1) true envC10`, written out. -/
def resC10 : RolloutResult :=
  { state := { ended := [true, true],
               paths := [[⟨"s0", 0, 0⟩], [⟨"s1", 0, 0⟩, ⟨"w0", 0, 0⟩]],
               confs := [[0], [0, 0]],
               rewards := [], masks := [],
               lastDist := [5, 5], lastNdtw := [0, 0],
               beforeEnded := [[false, false], [true, false]],
               actionHist := [[-1, 0], [-1, -1]],
               steps := 2 },
    criticEvals := 0, rlLossAdded := false, ilLossAdded := true }

/-! ## Helper lemmas on list indexing -/

theorem getD_map_range {α : Type} (f : ℕ → α) (B i : ℕ) (d : α) (h : i < B) :
    ((List.range B).map f).getD i d = f i := by
  rw [List.getD_eq_getElem?_getD]
  simp [List.getElem?_map, List.getElem?_range, h]

theorem getD_map_range_ge {α : Type} (f : ℕ → α) (B i : ℕ) (d : α) (h : B ≤ i) :
    ((List.range B).map f).getD i d = d := by
  apply List.getD_eq_default
  simpa using h

theorem ite_sub_eq (P Q : Prop) [Decidable P] [Decidable Q] (hpq : P ↔ Q) (r pen : ℚ) :
    (if P then r - pen else r) = r - (if Q then pen else 0) := by
  by_cases h : P
  · rw [if_pos h, if_pos (hpq.mp h)]
  · rw [if_neg h, if_neg (fun hq => h (hpq.mpr hq))]
    ring

theorem chain'_concat_of {α : Type} (R : α → α → Prop) (l : List α) (x : α)
    (h1 : List.Chain' R l) (h2 : ∀ a, l.getLast? = some a → R a x) :
    List.Chain' R (l ++ [x]) := by
  rw [List.chain'_append]
  refine ⟨h1, List.chain'_singleton _, ?_⟩
  intro a ha b hb
  simp only [List.head?_cons, Option.mem_def, Option.some.injEq] at hb
  subst hb
  exact h2 a ha

/-! ## Claim C1: masking before argmax -/

theorem logitLt_negInf (bv : Logit) : logitLt bv Logit.negInf = false := by
  cases bv <;> rfl

theorem maskedFillFrom_length (k : ℕ) :
    ∀ (xs : List Logit) (j : ℕ), (maskedFillFrom j k xs).length = xs.length := by
  intro xs
  induction xs with
  | nil => intro j; rfl
  | cons x xs ih => intro j; simp [maskedFillFrom, ih]

theorem maskedFillFrom_getD (k : ℕ) :
    ∀ (xs : List Logit) (j p : ℕ), p < xs.length → k ≤ j + p →
      (maskedFillFrom j k xs).getD p Logit.negInf = Logit.negInf := by
  intro xs
  induction xs with
  | nil => intro j p hp _; simp at hp
  | cons x xs ih =>
      intro j p hp hk
      cases p with
      | zero =>
          have hkj : length2mask k j = true := by
            simp only [length2mask, decide_eq_true_eq]
            omega
          simp [maskedFillFrom, hkj]
      | succ p =>
          simp only [maskedFillFrom, List.getD_cons_succ]
          exact ih (j + 1) p (by simpa using Nat.lt_of_succ_lt_succ hp) (by omega)

theorem argmaxAux_lt (k : ℕ) :
    ∀ (xs : List Logit) (j bi : ℕ) (bv : Logit), bi < k →
      (∀ p, p < xs.length → k ≤ j + p → xs.getD p Logit.negInf = Logit.negInf) →
      argmaxAux xs j bi bv < k := by
  intro xs
  induction xs with
  | nil => intro j bi bv hbi _; simpa [argmaxAux] using hbi
  | cons x xs ih =>
      intro j bi bv hbi hmask
      have hshift : ∀ p, p < xs.length → k ≤ (j + 1) + p →
          xs.getD p Logit.negInf = Logit.negInf := by
        intro p hp hk
        have := hmask (p + 1) (by simpa using Nat.succ_lt_succ hp) (by omega)
        simpa using this
      by_cases hlt : logitLt bv x = true
      · have hj : j < k := by
          by_contra hjk
          push_neg at hjk
          have hx : x = Logit.negInf := by simpa using hmask 0 (by simp) (by omega)
          rw [hx, logitLt_negInf] at hlt
          exact Bool.false_ne_true hlt
        simpa [argmaxAux, hlt] using ih (j + 1) j x hj hshift
      · simpa [argmaxAux, hlt] using ih (j + 1) bi bv hbi hshift

/-- C1 counterexample: the claim requires the masked-slot safety in every
feedback mode, but in `teacher` (and `sample`) feedback the code takes the
argmax of the unmasked logits; with candidate count `k = 2` and a padded
batch row of 3 logit slots whose padding slot carries the largest raw
logit, the chosen action index is 2, not `< 2`. -/
theorem c1_unmasked_feedback_counterexample :
    chooseAction "teacher" [Logit.val 0, Logit.val 1, Logit.val 5] 2 = 2 := by decide

/-- C1 amended: in the `argmax` feedback mode, where the candidate mask is
applied (logits at slots `≥ k` filled with `-inf`) before `logit.max(1)`,
the chosen action index is always `< k`, for any logit row with
`1 ≤ k ≤ row length`. -/
theorem c1_masked_argmax_never_invalid (logits : List Logit) (k : ℕ)
    (h1 : 1 ≤ k) (h2 : k ≤ logits.length) :
    chooseAction "argmax" logits k < k := by
  unfold chooseAction
  rw [if_pos rfl]
  unfold masked_fill
  cases logits with
  | nil => simp at h2; omega
  | cons x xs =>
      have h0 : length2mask k 0 = false := by
        simp only [length2mask, decide_eq_false_iff_not]
        omega
      unfold maskedFillFrom
      rw [h0]
      simp only [Bool.false_eq_true, if_false]
      unfold argmaxRow
      apply argmaxAux_lt k _ 1 0 x h1
      intro p hp hk
      rw [maskedFillFrom_length] at hp
      exact maskedFillFrom_getD k xs 1 p hp (by omega)

theorem c1_masked_argmax_never_invalid_witness :
    1 ≤ 2 ∧ 2 ≤ 3 ∧ chooseAction "argmax" [Logit.val 0, Logit.val 1, Logit.val 5] 2 < 2 :=
  ⟨by decide, by decide,
   c1_masked_argmax_never_invalid [Logit.val 0, Logit.val 1, Logit.val 5] 2
     (by decide) (by decide)⟩

/-! ## Claim C4: Monte Carlo dropout side effects -/

/-- C4 counterexample: starting from deterministic evaluation mode with
gradients enabled (the state `test()` establishes), `monte_carlo_forward`
returns with the dropout sub-modules still in train (stochastic) mode —
only the `mc_dropout` flag is reset, nothing reverts `module.train()` —
contradicting the claim that the toggle is reverted to evaluation mode by
the time the call returns. -/
theorem c4_dropout_not_reverted_counterexample :
    (monte_carlo_forward ⟨false, false, true⟩).finalState.dropoutTrain = true := by decide

/-- C4 amended: `monte_carlo_forward` runs exactly `mc_dropout_samples = 10`
(strictly more than one) stochastic passes, every pass executes with
gradient tracking disabled, the ambient gradient mode is restored on exit,
and the `mc_dropout` flag is cleared before returning — but the dropout
sub-modules are left in train (stochastic) mode, not reverted to
deterministic evaluation mode. -/
theorem c4_monte_carlo_forward_amended (s0 : MCState) :
    monte_carlo_forward s0 =
      { finalState := { mcDropout := false, dropoutTrain := true,
                        gradEnabled := s0.gradEnabled },
        numPasses := mc_dropout_samples,
        passGradModes := List.replicate mc_dropout_samples false } ∧
    1 < mc_dropout_samples := by
  exact ⟨rfl, by decide⟩

/-! ## Claim C9: unsupported encoder mode -/

/-- C9: calling `VLNBERT.forward` with a mode tag other than `language` or
`visual` is not fatal: the final `else:` consists of the bare expression
`ModuleNotFoundError`, which is evaluated and discarded without `raise`, so
the call returns Python `None` normally in every mode. -/
theorem c9_unsupported_mode_returns_none :
    (∀ mode : String, exceptIsOk (VLNBERT_forward mode) = true) ∧
    VLNBERT_forward "other" = Except.ok ForwardOut.noneOut := by
  constructor
  · intro mode
    by_cases h1 : mode = "language" <;> by_cases h2 : mode = "visual" <;>
      simp [VLNBERT_forward, exceptIsOk, h1, h2]
  · rfl

/-! ## Claim C5: zero-movement is fatal -/

/-- C5: for an active (non-ended) instance taking a non-stop action, an
unchanged goal distance makes the reward shaper raise the fatal
`NameError` instead of returning a reward. -/
theorem c5_zero_movement_fatal (action : Int) (dist lastDist ndtw lastNdtw : ℚ)
    (ha : action ≠ -1) (h0 : dist - lastDist = 0) :
    stepReward false action dist lastDist ndtw lastNdtw = Except.error zeroMoveMsg := by
  simp only [stepReward, Bool.false_eq_true, if_false]
  rw [if_neg ha, h0]
  norm_num

theorem c5_zero_movement_fatal_witness :
    (0 : Int) ≠ -1 ∧ (5 : ℚ) - 5 = 0 ∧
    stepReward false 0 5 5 (1 / 2) (1 / 2) = Except.error zeroMoveMsg :=
  ⟨by decide, by norm_num,
   c5_zero_movement_fatal 0 5 5 (1 / 2) (1 / 2) (by decide) (by norm_num)⟩

/-! ## Claim C6: the reward formula -/

/-- C6: the per-step reward of `rollout` matches the spec formula — stop
gives `2 + 2*nDTW` when the distance is below 3 and `-2` otherwise;
movement quantizes the base reward `-(dist - lastDist)` to `±1 + Δ nDTW`
with the extra `2*(1 - lastDist)` penalty when the instance was within 1.0
of the goal and moved away; ended instances get reward 0 and mask 0 — and
the spec example `lastDist = 4, dist = 2.5, nDTW 0.5 → 0.7` yields exactly
`1.2`. -/
theorem c6_reward_matches_spec :
    (∀ (ended : Bool) (action : Int) (dist lastDist ndtw lastNdtw : ℚ),
        stepReward ended action dist lastDist ndtw lastNdtw =
          specRewardMask ended action dist lastDist ndtw lastNdtw) ∧
    stepReward false 0 (5 / 2) 4 (7 / 10) (1 / 2) = Except.ok (6 / 5, 1) := by
  refine ⟨?_, by norm_num [stepReward, Prod.ext_iff]⟩
  intro ended action dist lastDist ndtw lastNdtw
  unfold stepReward specRewardMask
  cases ended with
  | true => rfl
  | false =>
      simp only [Bool.false_eq_true, if_false]
      have hiff : (lastDist ≤ 1 ∧ 0 < dist - lastDist) ↔ (lastDist ≤ 1 ∧ lastDist < dist) := by
        rw [sub_pos]
      by_cases ha : action = -1
      · rw [if_pos ha, if_pos ha]
        by_cases h3 : dist < 3
        · rw [if_pos h3, if_pos h3]
          exact congrArg (fun z => Except.ok (z, 1)) (by ring)
        · rw [if_neg h3, if_neg h3]
      · rw [if_neg ha, if_neg ha]
        by_cases hp : (0 : ℚ) < -(dist - lastDist)
        · rw [if_pos hp, if_pos hp]
          exact congrArg (fun z => Except.ok (z, 1)) (ite_sub_eq _ _ hiff _ _)
        · rw [if_neg hp, if_neg hp]
          by_cases hn : -(dist - lastDist) < 0
          · rw [if_pos hn, if_pos hn]
            exact congrArg (fun z => Except.ok (z, 1)) (ite_sub_eq _ _ hiff _ _)
          · rw [if_neg hn, if_neg hn]

/-! ## Claim C7: the teacher/oracle resolver -/

theorem findTeacherIdx_eq (t : String) :
    ∀ (cs : List String) (k : ℕ),
      findTeacherIdx t cs k = (scanCandidates t cs).map (· + k) := by
  intro cs
  induction cs with
  | nil => intro k; rfl
  | cons c cs ih =>
      intro k
      unfold findTeacherIdx scanCandidates
      by_cases h : c = t
      · simp [h]
      · rw [if_neg h, if_neg h, ih (k + 1)]
        cases hsc : scanCandidates t cs with
        | none => rfl
        | some a =>
            simp only [Option.map_map, Option.map_some', Function.comp]
            congr 1
            omega

/-- C7: the teacher-action resolver gives an ended instance the ignore
label; an active instance gets the first candidate index matching the
oracle viewpoint, and with no match the oracle viewpoint must equal the
current viewpoint (else the assertion fires) and the label is the virtual
stop slot `len(candidates)` — together with the spec's concrete examples
on the candidate list `["A", "B"]`. -/
theorem c7_teacher_resolver :
    (∀ (ig : Int) (e : Bool) (ob : ObsT),
        teacherActionOne ig e ob = specTeacherLabel ig e ob) ∧
    teacherActionOne (-100) false ⟨["A", "B"], "B", "X"⟩ = Except.ok 1 ∧
    teacherActionOne (-100) false ⟨["A", "B"], "C", "C"⟩ = Except.ok 2 ∧
    teacherActionOne (-100) false ⟨["A", "B"], "C", "D"⟩ = Except.error teacherAssertMsg ∧
    teacherActionOne (-100) true ⟨["A", "B"], "C", "D"⟩ = Except.ok (-100) := by
  refine ⟨?_, by decide, by decide, by decide, by decide⟩
  intro ig e ob
  unfold teacherActionOne specTeacherLabel
  cases e with
  | true => rfl
  | false =>
      simp only [Bool.false_eq_true, if_false]
      rw [findTeacherIdx_eq]
      cases hsc : scanCandidates ob.teacher ob.candidates with
      | none => rfl
      | some a => simp only [Option.map_some', Nat.add_zero]

/-! ## Claim C3: the combined confidence formula -/

/-- C3: for every stack of ensemble logits, the confidence estimator
returns, per batch instance, the arithmetic mean of exactly the three spec
terms: the entropy confidence `1 - H(mean softmax)/log numCandidates` (with
the additive epsilon inside the log), the inverse variance
`1 - mean over candidates of the ensemble variance`, and the agreement
`max(mean softmax)`. -/
theorem c3_confidence_is_mean_of_three_terms (N C : ℕ)
    (logits : Fin N → Fin (C + 1) → ℝ) :
    calculate_confidence logits =
      (entropyConfidenceTerm logits + inverseVarianceTerm logits + agreementTerm logits) / 3 :=
  rfl

/-! ## Claim C8: the early-exit scenario -/

/-- C8: in the batch-of-2, `episodeLen = 3` scenario where both instances
select the stop action at step 0, the rollout executes exactly one step
(early exit), both returned trajectory paths have length 1, and both
confidence-score lists have length 1 (which is in the claimed range `0` or
`1`), in both the `argmax` and the `teacher` feedback modes. -/
theorem c8_both_stop_immediately :
    envC8.episodeLen = 3 ∧
    (rollout "argmax" none true envC8).map
        (fun r => (r.state.steps, r.state.paths.map List.length, r.state.confs.map List.length)) =
      Except.ok (1, [1, 1], [1, 1]) ∧
    (rollout "teacher" none true envC8).map
        (fun r => (r.state.steps, r.state.paths.map List.length, r.state.confs.map List.length)) =
      Except.ok (1, [1, 1], [1, 1]) :=
  ⟨rfl, by decide, by decide⟩

/-! ## Claim C10: `teacher`/`argmax` feedback disables RL -/

theorem rolloutStep_false_frame (env : RolloutEnv) (fb : String) (t : ℕ)
    (s s' : RolloutState) (h : rolloutStep env fb false t s = Except.ok s') :
    s'.rewards = s.rewards ∧ s'.masks = s.masks := by
  unfold rolloutStep at h
  simp only [Bool.false_eq_true, if_false, pure] at h
  injection h with h
  subst h
  exact ⟨rfl, rfl⟩

theorem rolloutLoop_false_frame (env : RolloutEnv) (fb : String) :
    ∀ (fuel t : ℕ) (s s' : RolloutState),
      rolloutLoop env fb false fuel t s = Except.ok s' →
      s'.rewards = s.rewards ∧ s'.masks = s.masks := by
  intro fuel
  induction fuel with
  | zero =>
      intro t s s' h
      injection h with h
      subst h
      exact ⟨rfl, rfl⟩
  | succ n ih =>
      intro t s s' h
      unfold rolloutLoop at h
      cases hstep : rolloutStep env fb false t s with
      | error e => rw [hstep] at h; exact absurd h (by simp [Bind.bind, Except.bind])
      | ok s1 =>
          rw [hstep] at h
          simp only [Bind.bind, Except.bind] at h
          obtain ⟨hr1, hm1⟩ := rolloutStep_false_frame env fb t s s1 hstep
          by_cases hall : s1.ended.all (fun b => b)
          · rw [if_pos hall] at h
            injection h with h
            subst h
            exact ⟨hr1, hm1⟩
          · rw [if_neg hall] at h
            obtain ⟨hr2, hm2⟩ := ih (t + 1) s1 s' h
            exact ⟨hr2.trans hr1, hm2.trans hm1⟩

/-- C10: whenever the feedback mode is `teacher` or `argmax`, the rollout
overrides its `train_rl` argument to `False` no matter what the caller
passed: no reward or mask vectors are accumulated, the critic is never
evaluated, and no RL loss term is added to the accumulated loss. -/
theorem c10_teacher_argmax_disable_rl (feedback : String) (trainMl : Option ℚ)
    (trainRl : Bool) (env : RolloutEnv) (r : RolloutResult)
    (hfb : feedback = "teacher" ∨ feedback = "argmax")
    (h : rollout feedback trainMl trainRl env = Except.ok r) :
    r.state.rewards = [] ∧ r.state.masks = [] ∧
      r.criticEvals = 0 ∧ r.rlLossAdded = false := by
  unfold rollout at h
  have heff : effTrainRl feedback trainRl = false := by
    unfold effTrainRl
    rw [if_pos hfb]
  rw [heff] at h
  cases hloop : rolloutLoop env feedback false env.episodeLen 0 (initState env) with
  | error e => rw [hloop] at h; exact absurd h (by simp [Bind.bind, Except.bind])
  | ok s =>
      rw [hloop] at h
      simp only [Bind.bind, Except.bind, pure] at h
      obtain ⟨hr, hm⟩ :=
        rolloutLoop_false_frame env feedback env.episodeLen 0 (initState env) s hloop
      injection h with h
      subst h
      exact ⟨hr, hm, rfl, rfl⟩

theorem c10_teacher_argmax_disable_rl_witness :
    ("teacher" = "teacher" ∨ "teacher" = "argmax") ∧
    rollout "teacher" (some 1) true envC10 = Except.ok resC10 ∧
    (resC10.state.rewards = [] ∧ resC10.state.masks = [] ∧
      resC10.criticEvals = 0 ∧ resC10.rlLossAdded = false) :=
  ⟨Or.inl rfl, by decide,
   c10_teacher_argmax_disable_rl "teacher" (some 1) true envC10 resC10
     (Or.inl rfl) (by decide)⟩

/-! ## Claim C2: monotone `ended`, forced no-op, frozen confidence -/

theorem cpuAction_of_ended (env : RolloutEnv) (t i : ℕ) :
    cpuAction env t true i = -1 := by
  simp [cpuAction]

theorem stepCpu_getD_lt (env : RolloutEnv) (t : ℕ) (s : RolloutState) (i : ℕ)
    (h : i < env.batchSize) :
    (stepCpu env t s).getD i (-1) = cpuAction env t (s.ended.getD i false) i := by
  unfold stepCpu
  exact getD_map_range _ _ _ _ h

theorem stepCpu_getD_ge (env : RolloutEnv) (t : ℕ) (s : RolloutState) (i : ℕ)
    (h : env.batchSize ≤ i) :
    (stepCpu env t s).getD i (-1) = -1 := by
  unfold stepCpu
  exact getD_map_range_ge _ _ _ _ h

theorem endedMono_step (env : RolloutEnv) (t : ℕ) (s : RolloutState)
    (hlen : s.ended.length = env.batchSize) :
    endedMono s.ended (stepEnded env t s) := by
  intro i hi
  by_cases hiB : i < env.batchSize
  · unfold stepEnded
    rw [getD_map_range _ _ _ _ hiB, hi]
    rfl
  · exfalso
    rw [List.getD_eq_default _ _ (by omega)] at hi
    exact Bool.false_ne_true hi

theorem rolloutStep_ok_shape (env : RolloutEnv) (fb : String) (rl : Bool) (t : ℕ)
    (s s' : RolloutState) (h : rolloutStep env fb rl t s = Except.ok s') :
    s'.ended = stepEnded env t s ∧ s'.confs = stepConfs env fb t s ∧
      s'.beforeEnded = s.beforeEnded ++ [s.ended] ∧
      s'.actionHist = s.actionHist ++ [stepCpu env t s] := by
  unfold rolloutStep at h
  cases rl with
  | false =>
      simp only [Bool.false_eq_true, if_false, pure] at h
      injection h with h
      subst h
      exact ⟨rfl, rfl, rfl, rfl⟩
  | true =>
      simp only [if_true, Bind.bind] at h
      cases hm : (List.range env.batchSize).mapM fun i =>
          stepReward (s.ended.getD i false) ((stepCpu env t s).getD i (-1)) (env.stepDist t i)
            (s.lastDist.getD i 0) (env.stepNdtw t i) (s.lastNdtw.getD i 0) with
      | error e => rw [hm] at h; exact absurd h (by simp [Except.bind])
      | ok rms =>
          rw [hm] at h
          simp only [Except.bind, pure] at h
          injection h with h
          subst h
          exact ⟨rfl, rfl, rfl, rfl⟩

theorem rolloutStep_preserves_inv (env : RolloutEnv) (fb : String) (rl : Bool) (t : ℕ)
    (s s' : RolloutState) (h : rolloutStep env fb rl t s = Except.ok s')
    (hinv : RolloutInv env.batchSize s) : RolloutInv env.batchSize s' := by
  obtain ⟨hlen, haLen, hmono, hforced, hconf⟩ := hinv
  obtain ⟨hE, hC, hB, hA⟩ := rolloutStep_ok_shape env fb rl t s s' h
  refine ⟨?_, ?_, ?_, ?_, ?_⟩
  · rw [hE]
    unfold stepEnded
    simp
  · rw [hA, hB]
    simp [haLen]
  · unfold EndedMonotone
    rw [hE, hB]
    exact chain'_concat_of _ _ _ hmono (by
      intro a ha
      rw [List.getLast?_concat] at ha
      injection ha with ha
      subst ha
      exact endedMono_step env t s hlen)
  · intro t' i hti
    rw [hB] at hti
    rw [hA]
    by_cases ht1 : t' < s.beforeEnded.length
    · have ht1' : t' < s.actionHist.length := by omega
      rw [List.getD_append _ _ _ _ ht1] at hti
      rw [List.getD_append _ _ _ _ ht1']
      exact hforced t' i hti
    · by_cases ht2 : t' = s.beforeEnded.length
      · subst ht2
        have ha1 : s.actionHist.length ≤ s.beforeEnded.length := le_of_eq haLen
        rw [List.getD_append_right _ _ _ _ le_rfl, Nat.sub_self] at hti
        rw [List.getD_append_right _ _ _ _ ha1, haLen, Nat.sub_self]
        simp only [List.getD_cons_zero] at hti ⊢
        by_cases hiB : i < env.batchSize
        · rw [stepCpu_getD_lt env t s i hiB, hti, cpuAction_of_ended]
        · exact stepCpu_getD_ge env t s i (by omega)
      · have hbig : (s.actionHist ++ [stepCpu env t s]).length ≤ t' := by
          rw [List.length_append, List.length_singleton]
          omega
        rw [List.getD_eq_default _ _ hbig]
        simp
  · intro i hiB
    rw [hC, hB]
    unfold stepConfs
    rw [getD_map_range _ _ _ _ hiB, List.countP_append]
    simp only [List.countP_cons, List.countP_nil, Nat.zero_add]
    by_cases hie : s.ended.getD i false = true
    · rw [if_pos hie, hie, hconf i hiB]
      simp
    · have hie' : s.ended.getD i false = false := by
        cases hh : s.ended.getD i false
        · rfl
        · exact absurd hh hie
      rw [if_neg hie, hie', List.length_append, hconf i hiB]
      simp

theorem rolloutLoop_preserves_inv (env : RolloutEnv) (fb : String) (rl : Bool) :
    ∀ (fuel t : ℕ) (s s' : RolloutState),
      rolloutLoop env fb rl fuel t s = Except.ok s' →
      RolloutInv env.batchSize s → RolloutInv env.batchSize s' := by
  intro fuel
  induction fuel with
  | zero =>
      intro t s s' h hinv
      injection h with h
      subst h
      exact hinv
  | succ n ih =>
      intro t s s' h hinv
      unfold rolloutLoop at h
      cases hstep : rolloutStep env fb rl t s with
      | error e => rw [hstep] at h; exact absurd h (by simp [Bind.bind, Except.bind])
      | ok s1 =>
          rw [hstep] at h
          simp only [Bind.bind, Except.bind] at h
          have hinv1 := rolloutStep_preserves_inv env fb rl t s s1 hstep hinv
          by_cases hall : s1.ended.all (fun b => b)
          · rw [if_pos hall] at h
            injection h with h
            subst h
            exact hinv1
          · rw [if_neg hall] at h
            exact ih (t + 1) s1 s' h hinv1

theorem initState_inv (env : RolloutEnv) : RolloutInv env.batchSize (initState env) := by
  refine ⟨by simp [initState], rfl, ?_, ?_, ?_⟩
  · unfold EndedMonotone
    simp [initState]
  · intro t i hti
    simp [initState] at hti
  · intro i hiB
    simp only [initState, List.countP_nil]
    rw [List.getD_eq_getElem?_getD]
    simp [List.getElem?_replicate, hiB]

/-- C2: within one rollout call, the `ended` flag is monotone along the
executed steps (an instance never un-ends), every instance already ended at
the start of a step is forced to the sentinel environment action `-1` at
that step, and no confidence score is appended for an instance after it
has ended (its list has exactly one entry per step at whose start it was
still active). -/
theorem c2_ended_monotone_noop_frozen (feedback : String) (trainMl : Option ℚ)
    (trainRl : Bool) (env : RolloutEnv) (r : RolloutResult)
    (h : rollout feedback trainMl trainRl env = Except.ok r) :
    EndedMonotone r.state ∧ ForcedNoop r.state ∧ ConfFrozen env.batchSize r.state := by
  unfold rollout at h
  cases hloop : rolloutLoop env feedback (effTrainRl feedback trainRl)
      env.episodeLen 0 (initState env) with
  | error e => rw [hloop] at h; exact absurd h (by simp [Bind.bind, Except.bind])
  | ok s =>
      rw [hloop] at h
      simp only [Bind.bind, Except.bind, pure] at h
      have hinv := rolloutLoop_preserves_inv env feedback (effTrainRl feedback trainRl)
        env.episodeLen 0 (initState env) s hloop (initState_inv env)
      injection h with h
      subst h
      exact ⟨hinv.2.2.1, hinv.2.2.2.1, hinv.2.2.2.2⟩

theorem c2_ended_monotone_noop_frozen_witness :
    rollout "argmax" none false envC2 = Except.ok resC2 ∧
    (EndedMonotone resC2.state ∧ ForcedNoop resC2.state ∧ ConfFrozen 2 resC2.state) :=
  ⟨by decide,
   c2_ended_monotone_noop_frozen "argmax" none false envC2 resC2 (by decide)⟩

end CalmVLN
